import Mathlib

/-!
Verification of the calculation core of the sports-betting repository
(`static/main.js`): the American-to-decimal odds converter, the
fractional-Kelly stake recommender, the recommended-stake display update,
and the bet-form submit handler.

JavaScript numbers are modelled as exact rationals extended with the
non-finite values `Infinity`, `-Infinity` and `NaN` (type `JSVal`);
IEEE-754 rounding of individual arithmetic operations is idealized away,
but the explicit decimal roundings performed by the code
(`.toFixed(4)` and `Math.round(x*100)/100`) are modelled exactly.
-/

namespace SportsBetting

/-- A JavaScript number: a finite value (modelled as an exact rational),
positive or negative infinity, or NaN. -/
inductive JSVal where
  | num (q : ℚ)
  | posInf
  | negInf
  | nan
deriving DecidableEq

/-- JS `isFinite(x)`. -/
def JSVal.isFinite : JSVal → Bool
  | .num _ => true
  | _ => false

/-- JS addition on extended numbers. -/
def jsAdd : JSVal → JSVal → JSVal
  | .num a, .num b => .num (a + b)
  | .num _, .posInf => .posInf
  | .posInf, .num _ => .posInf
  | .posInf, .posInf => .posInf
  | .num _, .negInf => .negInf
  | .negInf, .num _ => .negInf
  | .negInf, .negInf => .negInf
  | .posInf, .negInf => .nan
  | .negInf, .posInf => .nan
  | .nan, _ => .nan
  | _, .nan => .nan

/-- JS division on extended numbers (signed zero is not modelled: the only
division by zero reachable in the source is `100 / Math.abs(0)`, whose
divisor is positive zero). -/
def jsDiv : JSVal → JSVal → JSVal
  | .num a, .num b =>
      if b = 0 then (if a = 0 then .nan else if 0 < a then .posInf else .negInf)
      else .num (a / b)
  | .num _, .posInf => .num 0
  | .num _, .negInf => .num 0
  | .posInf, .num b => if b < 0 then .negInf else .posInf
  | .negInf, .num b => if b < 0 then .posInf else .negInf
  | .posInf, .posInf => .nan
  | .posInf, .negInf => .nan
  | .negInf, .posInf => .nan
  | .negInf, .negInf => .nan
  | .nan, _ => .nan
  | _, .nan => .nan

/-- JS `Math.abs`. -/
def jsAbs : JSVal → JSVal
  | .num q => .num |q|
  | .posInf => .posInf
  | .negInf => .posInf
  | .nan => .nan

/-- Rounding to 4 decimal places, ties toward positive infinity: the effect
of `.toFixed(4)` on a finite value. -/
def toFixed4 (q : ℚ) : ℚ := (⌊q * 10000 + 1/2⌋ : ℚ) / 10000

/-- Rounding to 2 decimal places via `Math.round(q * 100) / 100`
(`Math.round` rounds half toward positive infinity). -/
def round2 (q : ℚ) : ℚ := (⌊q * 100 + 1/2⌋ : ℚ) / 100

/-- The effect of `+(x.toFixed(4))`: a finite value is rounded to 4 decimal
places; `Infinity`, `-Infinity` and `NaN` round-trip through their string
forms (`"Infinity"` etc.) unchanged. -/
def jsToFixed4 : JSVal → JSVal
  | .num q => .num (toFixed4 q)
  | v => v

/-- `americanToDecimal` from `static/main.js` lines 2-7:
`Number(a)` is taken as already performed, so the argument is a `JSVal`;
`null` is modelled by `none`. A non-finite argument (the NaN and infinite
cases of `isFinite`) yields `none`; a positive finite `n` yields
`+(n/100 + 1).toFixed(4)`; any other finite `n` (zero included) yields
`+(100/Math.abs(n) + 1).toFixed(4)`. -/
def americanToDecimal : JSVal → Option JSVal
  | .num n =>
      if 0 < n then
        some (jsToFixed4 (jsAdd (jsDiv (.num n) (.num 100)) (.num 1)))
      else
        some (jsToFixed4 (jsAdd (jsDiv (.num 100) (jsAbs (.num n))) (.num 1)))
  | _ => none

/-- `computeKelly` from `static/main.js` lines 10-21, on finite inputs.
The truthiness tests `!odds` and `!prob` hold for a finite number exactly
when it is zero. `0.10` is the rational 1/10. -/
def computeKelly (bankroll percentCap odds prob : ℚ) : ℚ :=
  if odds = 0 ∨ prob = 0 ∨ odds ≤ 0 ∨ prob ≤ 0 ∨ 1 ≤ prob then 0
  else
    let b := odds - 1
    if b ≤ 0 then 0
    else
      let f := (b * prob - (1 - prob)) / b
      let f2 := max 0 f
      let rawStake := f2 * bankroll
      let cap := percentCap * bankroll
      let recommended := min rawStake cap
      let recommended2 := max recommended (1/10)
      round2 recommended2

/-- JS truthiness negation `!x` for a number: true exactly for 0 and NaN. -/
def jsFalsy : JSVal → Bool
  | .num q => decide (q = 0)
  | .posInf => false
  | .negInf => false
  | .nan => true

/-- JS comparison `x <= y` on extended numbers: false whenever NaN is
involved. -/
def jsLe : JSVal → JSVal → Bool
  | .nan, _ => false
  | _, .nan => false
  | .num a, .num b => decide (a ≤ b)
  | .num _, .posInf => true
  | .num _, .negInf => false
  | .posInf, .num _ => false
  | .posInf, .posInf => true
  | .posInf, .negInf => false
  | .negInf, _ => true

/-- JS subtraction on extended numbers. -/
def jsSub : JSVal → JSVal → JSVal
  | .num a, .num b => .num (a - b)
  | .num _, .posInf => .negInf
  | .num _, .negInf => .posInf
  | .posInf, .num _ => .posInf
  | .negInf, .num _ => .negInf
  | .posInf, .negInf => .posInf
  | .negInf, .posInf => .negInf
  | .posInf, .posInf => .nan
  | .negInf, .negInf => .nan
  | .nan, _ => .nan
  | _, .nan => .nan

/-- JS multiplication on extended numbers (0 times an infinity is NaN). -/
def jsMul : JSVal → JSVal → JSVal
  | .num a, .num b => .num (a * b)
  | .num a, .posInf => if a = 0 then .nan else if 0 < a then .posInf else .negInf
  | .num a, .negInf => if a = 0 then .nan else if 0 < a then .negInf else .posInf
  | .posInf, .num b => if b = 0 then .nan else if 0 < b then .posInf else .negInf
  | .negInf, .num b => if b = 0 then .nan else if 0 < b then .negInf else .posInf
  | .posInf, .posInf => .posInf
  | .posInf, .negInf => .negInf
  | .negInf, .posInf => .negInf
  | .negInf, .negInf => .posInf
  | .nan, _ => .nan
  | _, .nan => .nan

/-- JS `Math.max`: NaN if either argument is NaN. -/
def jsMax : JSVal → JSVal → JSVal
  | .nan, _ => .nan
  | _, .nan => .nan
  | .num a, .num b => .num (max a b)
  | .num _, .posInf => .posInf
  | .num a, .negInf => .num a
  | .posInf, _ => .posInf
  | .negInf, v => v

/-- JS `Math.min`: NaN if either argument is NaN. -/
def jsMin : JSVal → JSVal → JSVal
  | .nan, _ => .nan
  | _, .nan => .nan
  | .num a, .num b => .num (min a b)
  | .num a, .posInf => .num a
  | .num _, .negInf => .negInf
  | .posInf, v => v
  | .negInf, _ => .negInf

/-- JS `Math.round` (half toward positive infinity); NaN and the infinities
pass through. -/
def jsRound : JSVal → JSVal
  | .num q => .num ((⌊q + 1/2⌋ : ℤ) : ℚ)
  | v => v

/-- `computeKelly` from `static/main.js` lines 10-21 over full JS numbers,
infinities and NaN included: the guard comparisons are all false on NaN,
`Infinity` is truthy and passes every guard, and NaN propagates through
`Math.max`, `Math.min` and `Math.round`. `computeKellyJS_num` below shows
this agrees with the rational `computeKelly` on finite inputs. -/
def computeKellyJS (bankroll percentCap odds prob : JSVal) : JSVal :=
  if jsFalsy odds || jsFalsy prob || jsLe odds (.num 0) || jsLe prob (.num 0) ||
      jsLe (.num 1) prob then .num 0
  else
    let b := jsSub odds (.num 1)
    if jsLe b (.num 0) then .num 0
    else
      let f := jsDiv (jsSub (jsMul b prob) (jsSub (.num 1) prob)) b
      let f2 := jsMax (.num 0) f
      let rawStake := jsMul f2 bankroll
      let cap := jsMul percentCap bankroll
      let recommended := jsMin rawStake cap
      let recommended2 := jsMax recommended (.num (1/10))
      jsDiv (jsRound (jsMul recommended2 (.num 100))) (.num 100)

/-- Rendering of a JS number to a string (`String(x)`, and the implicit
conversion in `el.textContent = x`). Finite values are rendered as exact
rationals — an idealization of the JS shortest-round-trip decimal form;
no claim inspects the rendered text of a finite number. -/
def jsValToString : JSVal → String
  | .num q => toString q
  | .posInf => "Infinity"
  | .negInf => "-Infinity"
  | .nan => "NaN"

/-- The three DOM nodes written or read by `updateRecommended`
(`static/main.js` lines 54-66): the `converted_decimal` span text, the
`recommended_stake` span text, and the hidden `odds_hidden` field value. -/
structure PageState where
  converted_decimal : String
  recommended_stake : String
  odds_hidden : String
deriving DecidableEq

/-- `updateRecommended` from `static/main.js` lines 54-66. The argument `a`
is `Number(aInput.value)` and `p` is `parseFloat(probInput.value)`, both
already parsed to JS numbers. If the conversion returns `null` or `p` is
not finite, the recommended-stake text becomes the dash sentinel and the
hidden odds field is cleared, leaving the converted-decimal span as it was;
otherwise all three nodes are written. When the conversion yields
`Infinity` (input `a = 0`) the JS Kelly computation returns `0.0` when the
probability guard trips and propagates NaN otherwise; that branch is spelt
out here on the rationals. -/
def updateRecommended (bankroll percentCap : ℚ) (a p : JSVal)
    (st : PageState) : PageState :=
  match americanToDecimal a with
  | none => { st with recommended_stake := "—", odds_hidden := "" }
  | some dec =>
    match p with
    | .num pq =>
        match dec with
        | .num dq =>
            { converted_decimal := jsValToString (.num dq),
              recommended_stake :=
                "$" ++ jsValToString (.num (computeKelly bankroll percentCap dq pq)),
              odds_hidden := jsValToString (.num dq) }
        | d =>
            { converted_decimal := jsValToString d,
              recommended_stake :=
                "$" ++ (if pq ≤ 0 ∨ 1 ≤ pq then jsValToString (.num 0) else "NaN"),
              odds_hidden := jsValToString d }
    | _ => { st with recommended_stake := "—", odds_hidden := "" }

/-- The six visible bet-form values read by the submit handler
(`static/main.js` lines 81-86), as strings. -/
structure BetFormInputs where
  bet_name : String
  odds_hidden : String
  prob : String
  actual_stake : String
  sport : String
  bet_type : String
deriving DecidableEq

/-- The six hidden form fields written by the submit handler
(`static/main.js` lines 92-97). -/
structure HiddenFields where
  form_name : String
  form_odds : String
  form_prob : String
  form_stake : String
  form_sport : String
  form_type : String
deriving DecidableEq

/-- The observable outcome of one run of the submit handler: whether
`alert` fired, whether `e.preventDefault()` was called (a prevented
submission issues no network request), and the resulting hidden fields. -/
structure SubmitResult where
  alerted : Bool
  prevented : Bool
  hidden : HiddenFields
deriving DecidableEq

/-- The `betForm` submit handler from `static/main.js` lines 80-98.
String truthiness: `!s` holds exactly for the empty string, and
`s || d` is `d` when `s` is empty. `hidden0` is the prior content of the
hidden fields (unchanged when validation fails). -/
def betFormSubmit (inp : BetFormInputs) (hidden0 : HiddenFields) : SubmitResult :=
  let name := inp.bet_name
  let odds := inp.odds_hidden
  let prob := inp.prob
  let stake := inp.actual_stake
  let sport := if inp.sport.isEmpty then "" else inp.sport
  let ty := if inp.bet_type.isEmpty then "Moneyline" else inp.bet_type
  if name.isEmpty || odds.isEmpty || prob.isEmpty || stake.isEmpty then
    { alerted := true, prevented := true, hidden := hidden0 }
  else
    { alerted := false, prevented := false,
      hidden := { form_name := name, form_odds := odds, form_prob := prob,
                  form_stake := stake, form_sport := sport, form_type := ty } }

end SportsBetting

namespace SportsBetting

/-- Monotonicity of the 4-decimal rounding. -/
theorem toFixed4_mono {a b : ℚ} (h : a ≤ b) : toFixed4 a ≤ toFixed4 b := by
  unfold toFixed4
  have hf : ⌊a * 10000 + 1/2⌋ ≤ ⌊b * 10000 + 1/2⌋ := Int.floor_mono (by linarith)
  have hq : ((⌊a * 10000 + 1/2⌋ : ℤ) : ℚ) ≤ ((⌊b * 10000 + 1/2⌋ : ℤ) : ℚ) := by
    exact_mod_cast hf
  linarith

/-- Values at least 1 stay at least 1 under the 4-decimal rounding. -/
theorem one_le_toFixed4 {q : ℚ} (h : 1 ≤ q) : 1 ≤ toFixed4 q := by
  unfold toFixed4
  have hf : (10000 : ℤ) ≤ ⌊q * 10000 + 1/2⌋ := by
    rw [Int.le_floor]
    push_cast
    linarith
  have hq : ((10000 : ℤ) : ℚ) ≤ ((⌊q * 10000 + 1/2⌋ : ℤ) : ℚ) := by exact_mod_cast hf
  push_cast at hq
  linarith

/-- Monotonicity of the 2-decimal rounding. -/
theorem round2_mono {a b : ℚ} (h : a ≤ b) : round2 a ≤ round2 b := by
  unfold round2
  have hf : ⌊a * 100 + 1/2⌋ ≤ ⌊b * 100 + 1/2⌋ := Int.floor_mono (by linarith)
  have hq : ((⌊a * 100 + 1/2⌋ : ℤ) : ℚ) ≤ ((⌊b * 100 + 1/2⌋ : ℤ) : ℚ) := by
    exact_mod_cast hf
  linarith

/-- The floor value 0.10 is a fixed point of the 2-decimal rounding. -/
theorem round2_tenth : round2 (1/10) = 1/10 := by
  norm_num [round2]

/-- Evaluation of the converter on a positive finite input. -/
theorem americanToDecimal_pos {n : ℚ} (h : 0 < n) :
    americanToDecimal (.num n) = some (.num (toFixed4 (n / 100 + 1))) := by
  simp [americanToDecimal, h, jsDiv, jsAdd, jsToFixed4]

/-- Evaluation of the converter on a negative finite input. -/
theorem americanToDecimal_neg {n : ℚ} (h : n < 0) :
    americanToDecimal (.num n) = some (.num (toFixed4 (100 / |n| + 1))) := by
  have h1 : ¬ 0 < n := not_lt.mpr h.le
  have h2 : ¬ |n| = 0 := abs_ne_zero.mpr h.ne
  simp [americanToDecimal, h1, jsAbs, jsDiv, h2, jsAdd, jsToFixed4]

/-- Evaluation of the stake recommender when every guard passes. -/
theorem computeKelly_of_valid (B c o p : ℚ) (ho : 1 < o) (hp0 : 0 < p)
    (hp1 : p < 1) :
    computeKelly B c o p =
      round2 (max (min (max 0 (((o - 1) * p - (1 - p)) / (o - 1)) * B) (c * B))
        (1/10)) := by
  have hguard : ¬(o = 0 ∨ p = 0 ∨ o ≤ 0 ∨ p ≤ 0 ∨ 1 ≤ p) := by
    push_neg
    exact ⟨by linarith, by linarith, by linarith, by linarith, by linarith⟩
  have hb : ¬(o - 1 ≤ 0) := by push_neg; linarith
  simp only [computeKelly, if_neg hguard, if_neg hb]

/-- The JS guard boolean of the recommender agrees with the rational guard
on finite inputs. -/
theorem jsGuard_iff (o p : ℚ) :
    (jsFalsy (.num o) || jsFalsy (.num p) || jsLe (.num o) (.num 0) ||
        jsLe (.num p) (.num 0) || jsLe (.num 1) (.num p)) = true ↔
      (o = 0 ∨ p = 0 ∨ o ≤ 0 ∨ p ≤ 0 ∨ 1 ≤ p) := by
  simp [jsFalsy, jsLe]
  tauto

/-- On finite inputs the full-JS recommender agrees with the rational
recommender: no non-finite value arises on any path from finite inputs. -/
theorem computeKellyJS_num (B c o p : ℚ) :
    computeKellyJS (.num B) (.num c) (.num o) (.num p) =
      .num (computeKelly B c o p) := by
  unfold computeKellyJS computeKelly
  by_cases hg : o = 0 ∨ p = 0 ∨ o ≤ 0 ∨ p ≤ 0 ∨ 1 ≤ p
  · rw [if_pos ((jsGuard_iff o p).mpr hg), if_pos hg]
  · have hB : ¬((jsFalsy (.num o) || jsFalsy (.num p) || jsLe (.num o) (.num 0) ||
        jsLe (.num p) (.num 0) || jsLe (.num 1) (.num p)) = true) :=
      fun h => hg ((jsGuard_iff o p).mp h)
    rw [if_neg hB, if_neg hg]
    simp only [jsSub]
    by_cases hb : o - 1 ≤ 0
    · rw [if_pos, if_pos hb]
      simp [jsLe, hb]
    · have hbne : o - 1 ≠ 0 := by intro h; exact hb (le_of_eq h)
      rw [if_neg, if_neg hb]
      · simp only [jsMul, jsSub, jsDiv, hbne, if_false, jsMax, jsMin, jsRound,
          round2]
        norm_num
      · simp [jsLe, hb]

/-- Claim C1: for every finite input a (with a sign, so a nonzero), the
converter returns the specified rounded conversion: round(1 + a/100, 4)
when a > 0, and round(1 + 100/|a|, 4) when a < 0. -/
theorem C1_americanToDecimal_spec (a : ℚ) (ha : a ≠ 0) :
    americanToDecimal (.num a) =
      some (.num (toFixed4 (if 0 < a then 1 + a / 100 else 1 + 100 / |a|))) := by
  rcases lt_or_gt_of_ne ha with h | h
  · rw [americanToDecimal_neg h, if_neg (not_lt.mpr h.le), add_comm]
  · rw [americanToDecimal_pos h, if_pos h, add_comm]

/-- Witness for C1 at a = 100. -/
theorem C1_witness :
    americanToDecimal (.num 100) =
      some (.num (toFixed4
        (if 0 < (100 : ℚ) then 1 + 100 / 100 else 1 + 100 / |(100 : ℚ)|))) :=
  C1_americanToDecimal_spec 100 (by norm_num)

/-- Claim C2 counterexample: with p = 1 the precondition branch returns 0.0
directly, so the result is not the floored 0.10 the claim asserts. -/
theorem C2_counterexample : computeKelly 1000 (2/100) 2 1 ≠ 1/10 := by
  norm_num [computeKelly]

/-- Claim C2 (amended): when p ≤ 0 or p ≥ 1 computeKelly takes the
precondition-failure branch and returns exactly 0; the 0.10 floor is not
applied on that branch. -/
theorem C2_precondition_returns_zero (B c o p : ℚ) (h : p ≤ 0 ∨ 1 ≤ p) :
    computeKelly B c o p = 0 := by
  unfold computeKelly
  rw [if_pos]
  tauto

/-- Witness for C2 at B = 1000, c = 0.02, o = 2, p = 1. -/
theorem C2_witness : computeKelly 1000 (2/100) 2 1 = 0 :=
  C2_precondition_returns_zero 1000 (2/100) 2 1 (Or.inr le_rfl)

/-- Claim C3 counterexample: B = 1000, c = 0.000205, o = 2, p = 0.55 is a
valid input, yet the result 0.21 exceeds max(c·B, 0.10) = 0.205 because the
final 2-decimal rounding rounds the capped stake up past the cap. -/
theorem C3_counterexample :
    (0 : ℚ) ≤ 1000 ∧ (0 : ℚ) ≤ 41/200000 ∧ (41/200000 : ℚ) ≤ 1 ∧
      (1 : ℚ) < 2 ∧ (0 : ℚ) < 11/20 ∧ (11/20 : ℚ) < 1 ∧
      max ((41/200000) * 1000) (1/10) < computeKelly 1000 (41/200000) 2 (11/20) := by
  norm_num [computeKelly, round2, max_def]

/-- Claim C3 (amended): for every valid input the result lies in
[0.10, round2(max(c·B, 0.10))], i.e. the stated interval with its upper end
rounded to 2 decimal places (at most 0.005 above max(c·B, 0.10)). -/
theorem C3_computeKelly_bounds (B c o p : ℚ) (hB : 0 ≤ B) (hc0 : 0 ≤ c)
    (hc1 : c ≤ 1) (ho : 1 < o) (hp0 : 0 < p) (hp1 : p < 1) :
    1/10 ≤ computeKelly B c o p ∧
      computeKelly B c o p ≤ round2 (max (c * B) (1/10)) := by
  rw [computeKelly_of_valid B c o p ho hp0 hp1]
  constructor
  · calc (1 : ℚ)/10 = round2 (1/10) := round2_tenth.symm
      _ ≤ _ := round2_mono (le_max_right _ _)
  · exact round2_mono (max_le_max (min_le_right _ _) le_rfl)

/-- Witness for C3 at B = 1000, c = 0.02, o = 2, p = 0.55. -/
theorem C3_witness :
    1/10 ≤ computeKelly 1000 (1/50) 2 (11/20) ∧
      computeKelly 1000 (1/50) 2 (11/20) ≤ round2 (max ((1/50) * 1000) (1/10)) :=
  C3_computeKelly_bounds 1000 (1/50) 2 (11/20) (by norm_num) (by norm_num)
    (by norm_num) (by norm_num) (by norm_num) (by norm_num)

/-- Claim C4: the two reference evaluations: computeKelly(1000, 0.02, 2.0,
0.55) = 20.00 and computeKelly(1000, 0.02, 1.5, 0.5) = 0.10. -/
theorem C4_reference_evaluations :
    computeKelly 1000 (2/100) 2 (11/20) = 20 ∧
      computeKelly 1000 (2/100) (3/2) (1/2) = 1/10 := by
  constructor <;> norm_num [computeKelly, round2]

/-- Claim C5: the converter returns null exactly on non-finite inputs, and
the finite input 0 goes through the negative-odds branch, producing
Infinity (100/|0| in JS) rather than null. -/
theorem C5_null_iff_not_finite :
    (∀ v : JSVal, americanToDecimal v = none ↔ v.isFinite = false) ∧
      americanToDecimal (.num 0) = some .posInf := by
  constructor
  · intro v
    cases v with
    | num q =>
        simp only [americanToDecimal, JSVal.isFinite]
        constructor
        · intro h
          split at h <;> simp at h
        · intro h
          simp at h
    | posInf => simp [americanToDecimal, JSVal.isFinite]
    | negInf => simp [americanToDecimal, JSVal.isFinite]
    | nan => simp [americanToDecimal, JSVal.isFinite]
  · norm_num [americanToDecimal, jsAbs, jsDiv, jsAdd, jsToFixed4]

/-- Claim C6 counterexample: a = 0.001 is finite and nonzero, yet its
conversion rounds to exactly 1 at 4 decimal places, which is not strictly
greater than 1. -/
theorem C6_counterexample :
    americanToDecimal (.num (1/1000)) = some (.num 1) ∧ ¬ (1 : ℚ) < 1 := by
  constructor
  · norm_num [americanToDecimal, jsDiv, jsAbs, jsAdd, jsToFixed4, toFixed4]
  · norm_num

/-- Claim C6 (amended): for every finite nonzero input the converted decimal
value is at least 1 after the 4-decimal rounding (it can equal exactly 1,
e.g. at a = 0.001, so "strictly greater" fails but "at least" holds). -/
theorem C6_ge_one (a d : ℚ) (ha : a ≠ 0)
    (h : americanToDecimal (.num a) = some (.num d)) : 1 ≤ d := by
  rcases lt_or_gt_of_ne ha with hneg | hpos
  · rw [americanToDecimal_neg hneg] at h
    have e : toFixed4 (100 / |a| + 1) = d := by simpa using h
    rw [← e]
    apply one_le_toFixed4
    have h1 : 0 < |a| := abs_pos.mpr ha
    have h2 : 0 < 100 / |a| := by positivity
    linarith
  · rw [americanToDecimal_pos hpos] at h
    have e : toFixed4 (a / 100 + 1) = d := by simpa using h
    rw [← e]
    apply one_le_toFixed4
    have h2 : 0 < a / 100 := by positivity
    linarith

/-- Witness for C6 at a = 100, d = 2. -/
theorem C6_witness : 1 ≤ (2 : ℚ) :=
  C6_ge_one 100 2 (by norm_num)
    (by norm_num [americanToDecimal, jsDiv, jsAbs, jsAdd, jsToFixed4, toFixed4])

/-- Claim C7: the converter is monotonic: increasing in a for positive
inputs, and decreasing in the absolute value for negative inputs. -/
theorem C7_monotone (a1 a2 d1 d2 : ℚ)
    (h1 : americanToDecimal (.num a1) = some (.num d1))
    (h2 : americanToDecimal (.num a2) = some (.num d2)) :
    (0 < a1 → a1 < a2 → d1 ≤ d2) ∧
      (a1 < 0 → a2 < 0 → |a1| < |a2| → d2 ≤ d1) := by
  constructor
  · intro hp hlt
    have hp2 : 0 < a2 := hp.trans hlt
    rw [americanToDecimal_pos hp] at h1
    rw [americanToDecimal_pos hp2] at h2
    have e1 : toFixed4 (a1 / 100 + 1) = d1 := by simpa using h1
    have e2 : toFixed4 (a2 / 100 + 1) = d2 := by simpa using h2
    rw [← e1, ← e2]
    exact toFixed4_mono (by linarith)
  · intro hn1 hn2 habs
    rw [americanToDecimal_neg hn1] at h1
    rw [americanToDecimal_neg hn2] at h2
    have e1 : toFixed4 (100 / |a1| + 1) = d1 := by simpa using h1
    have e2 : toFixed4 (100 / |a2| + 1) = d2 := by simpa using h2
    rw [← e1, ← e2]
    apply toFixed4_mono
    have h01 : 0 < |a1| := abs_pos.mpr hn1.ne
    have h02 : 0 < |a2| := abs_pos.mpr hn2.ne
    have hdiv : (100 : ℚ) / |a2| ≤ 100 / |a1| := by
      apply div_le_div_of_nonneg_left (by norm_num) h01 habs.le
    linarith

/-- Witness for C7: both directions at concrete inputs
(100 < 200 on the positive side, |-100| < |-200| on the negative side). -/
theorem C7_witness : ((2 : ℚ) ≤ 3) ∧ ((3/2 : ℚ) ≤ 2) := by
  constructor
  · exact (C7_monotone 100 200 2 3
      (by norm_num [americanToDecimal, jsDiv, jsAbs, jsAdd, jsToFixed4, toFixed4])
      (by norm_num [americanToDecimal, jsDiv, jsAbs, jsAdd, jsToFixed4, toFixed4])).1
      (by norm_num) (by norm_num)
  · exact (C7_monotone (-100) (-200) 2 (3/2)
      (by norm_num [americanToDecimal, jsDiv, jsAbs, jsAdd, jsToFixed4, toFixed4])
      (by norm_num [americanToDecimal, jsDiv, jsAbs, jsAdd, jsToFixed4, toFixed4])).2
      (by norm_num) (by norm_num) (by norm_num)

/-- Claim C8: when any of the four visible fields is empty the submit
handler alerts, calls preventDefault (so the submission issues no network
request) and leaves the hidden fields untouched; when all four are
non-empty it neither alerts nor prevents, and fills the six hidden fields
from the form values. -/
theorem C8_betFormSubmit_validation (inp : BetFormInputs) (h0 : HiddenFields) :
    ((inp.bet_name.isEmpty || inp.odds_hidden.isEmpty || inp.prob.isEmpty ||
        inp.actual_stake.isEmpty) = true →
      (betFormSubmit inp h0).alerted = true ∧
        (betFormSubmit inp h0).prevented = true ∧
        (betFormSubmit inp h0).hidden = h0) ∧
    ((inp.bet_name.isEmpty || inp.odds_hidden.isEmpty || inp.prob.isEmpty ||
        inp.actual_stake.isEmpty) = false →
      (betFormSubmit inp h0).alerted = false ∧
        (betFormSubmit inp h0).prevented = false ∧
        (betFormSubmit inp h0).hidden =
          ⟨inp.bet_name, inp.odds_hidden, inp.prob, inp.actual_stake,
            if inp.sport.isEmpty then "" else inp.sport,
            if inp.bet_type.isEmpty then "Moneyline" else inp.bet_type⟩) := by
  constructor
  · intro h
    simp [betFormSubmit, h]
  · intro h
    simp [betFormSubmit, h]

/-- Witness for C8: an empty name blocks the submission, a fully filled
form does not. -/
theorem C8_witness :
    (betFormSubmit ⟨"", "2", "0.5", "10", "", ""⟩
        ⟨"a", "b", "c", "d", "e", "f"⟩).alerted = true ∧
      (betFormSubmit ⟨"x", "2", "0.5", "10", "NBA", "Spread"⟩
        ⟨"a", "b", "c", "d", "e", "f"⟩).alerted = false :=
  ⟨((C8_betFormSubmit_validation ⟨"", "2", "0.5", "10", "", ""⟩
      ⟨"a", "b", "c", "d", "e", "f"⟩).1 (by decide)).1,
   ((C8_betFormSubmit_validation ⟨"x", "2", "0.5", "10", "NBA", "Spread"⟩
      ⟨"a", "b", "c", "d", "e", "f"⟩).2 (by decide)).1⟩

/-- Claim C9 counterexample: at the reachable non-finite input
odds = Infinity (the conversion of American odds 0) with p = 1/2, the
recommender passes every guard (`Infinity` is truthy and not ≤ 0), the
Kelly fraction becomes Infinity/Infinity = NaN, and NaN propagates through
`Math.max`, `Math.min` and `Math.round` to the returned value — which is
therefore not a finite number at all, in particular neither 0 nor a value
at least 0.10, refuting the claim quantified over every input. -/
theorem C9_counterexample :
    americanToDecimal (.num 0) = some .posInf ∧
      computeKellyJS (.num 1000) (.num (2/100)) .posInf (.num (1/2)) = .nan ∧
      JSVal.nan.isFinite = false ∧
      JSVal.nan ≠ .num 0 ∧ JSVal.nan ≠ .num (1/10) := by
  refine ⟨?_, ?_, rfl, by simp, by simp⟩
  · norm_num [americanToDecimal, jsAbs, jsDiv, jsAdd, jsToFixed4]
  · norm_num [computeKellyJS, jsFalsy, jsLe, jsSub, jsMul, jsDiv, jsMax,
      jsMin, jsRound]

/-- Claim C9 (amended): for every finite input the recommender (the full JS
function, which agrees with the rational embedding on finite arguments)
returns a non-negative value in the set formed by 0 together with the
interval from 0.10 up: it returns exactly 0 whenever the precondition guard
or the net-odds guard fails (bypassing the 0.10 floor), and at least 0.10
on every other path. For non-finite odds the original universal claim fails:
odds = Infinity (reachable from American odds 0) with p in (0,1) yields
NaN. -/
theorem C9_computeKelly_range (B c o p : ℚ) :
    computeKellyJS (.num B) (.num c) (.num o) (.num p) =
        .num (computeKelly B c o p) ∧
      0 ≤ computeKelly B c o p ∧
      ((o = 0 ∨ p = 0 ∨ o ≤ 0 ∨ p ≤ 0 ∨ 1 ≤ p ∨ o - 1 ≤ 0) →
        computeKelly B c o p = 0) ∧
      (¬(o = 0 ∨ p = 0 ∨ o ≤ 0 ∨ p ≤ 0 ∨ 1 ≤ p ∨ o - 1 ≤ 0) →
        1/10 ≤ computeKelly B c o p) := by
  refine ⟨computeKellyJS_num B c o p, ?_⟩
  by_cases hg : (o = 0 ∨ p = 0 ∨ o ≤ 0 ∨ p ≤ 0 ∨ 1 ≤ p ∨ o - 1 ≤ 0)
  · have h0 : computeKelly B c o p = 0 := by
      by_cases hg1 : (o = 0 ∨ p = 0 ∨ o ≤ 0 ∨ p ≤ 0 ∨ 1 ≤ p)
      · simp only [computeKelly, if_pos hg1]
      · have hb : o - 1 ≤ 0 := by tauto
        simp only [computeKelly, if_neg hg1, if_pos hb]
    exact ⟨by rw [h0], fun _ => h0, fun hn => absurd hg hn⟩
  · have hg' := hg
    push_neg at hg'
    obtain ⟨h1, h2, h3, h4, h5, h6⟩ := hg'
    have ho : 1 < o := by linarith
    have hlow : 1/10 ≤ computeKelly B c o p := by
      rw [computeKelly_of_valid B c o p ho h4 h5]
      calc (1 : ℚ)/10 = round2 (1/10) := round2_tenth.symm
        _ ≤ _ := round2_mono (le_max_right _ _)
    exact ⟨by linarith, fun h => absurd h hg, fun _ => hlow⟩

/-- Witness for C9: the guard branch at o = 1 yields 0, and the valid input
(1000, 0.02, 2, 0.55) yields at least 0.10. -/
theorem C9_witness :
    computeKelly 1000 (2/100) 1 (11/20) = 0 ∧
      1/10 ≤ computeKelly 1000 (2/100) 2 (11/20) :=
  ⟨(C9_computeKelly_range 1000 (2/100) 1 (11/20)).2.2.1 (by norm_num),
   (C9_computeKelly_range 1000 (2/100) 2 (11/20)).2.2.2 (by norm_num)⟩

/-- Claim C10: on the invalid path (null odds conversion or non-finite
probability) updateRecommended sets the recommended display to the dash
sentinel and clears the hidden odds field, while the converted-decimal
display keeps its previous value. -/
theorem C10_updateRecommended_frame (bankroll percentCap : ℚ) (a p : JSVal)
    (st : PageState)
    (h : americanToDecimal a = none ∨ p.isFinite = false) :
    (updateRecommended bankroll percentCap a p st).recommended_stake = "—" ∧
      (updateRecommended bankroll percentCap a p st).odds_hidden = "" ∧
      (updateRecommended bankroll percentCap a p st).converted_decimal =
        st.converted_decimal := by
  unfold updateRecommended
  rcases h with h | h
  · rw [h]
    exact ⟨rfl, rfl, rfl⟩
  · cases hdec : americanToDecimal a with
    | none => exact ⟨rfl, rfl, rfl⟩
    | some dec =>
        cases p with
        | num pq => simp [JSVal.isFinite] at h
        | posInf => exact ⟨rfl, rfl, rfl⟩
        | negInf => exact ⟨rfl, rfl, rfl⟩
        | nan => exact ⟨rfl, rfl, rfl⟩

/-- Witness for C10: a NaN odds input with a stale converted display. -/
theorem C10_witness :
    (updateRecommended 0 0 .nan (.num (1/2))
        ⟨"stale", "x", "y"⟩).recommended_stake = "—" ∧
      (updateRecommended 0 0 .nan (.num (1/2)) ⟨"stale", "x", "y"⟩).odds_hidden = "" ∧
      (updateRecommended 0 0 .nan (.num (1/2))
        ⟨"stale", "x", "y"⟩).converted_decimal = "stale" :=
  C10_updateRecommended_frame 0 0 .nan (.num (1/2)) ⟨"stale", "x", "y"⟩
    (Or.inl rfl)

end SportsBetting
